import Mathlib

/-!
Verification of the video-downloader link-resolution engine.

The Python sources (downie_dispatch.py, cate/other_video.py,
cate/twitter_video.py) are shallowly embedded below.  Pure string and
dict manipulation is translated directly; CPython library behaviour the
scripts rely on (urllib.parse.urlparse, str.strip / splitlines / int(),
dict insertion-order update) is modelled explicitly; genuinely external
effects (network fetches via requests, subprocess invocation,
html.unescape, urllib.parse.urljoin) are passed in as function
parameters so that theorems quantify over them.
Strings are handled as `List Char` (`String.data`) wherever character
scanning is needed, so every definition is executable and reduces in the
kernel.
-/

set_option maxRecDepth 8000

namespace VD

abbrev CL := List Char

/-! ## Models of CPython string primitives -/

/-- Model of CPython `str.isspace` / the whitespace set used by
`str.strip()` and `str.split()` (Unicode whitespace code points). -/
def pyIsSpace (c : Char) : Bool :=
  let n := c.toNat
  (9 ≤ n && n ≤ 13) || (28 ≤ n && n ≤ 31) || n == 32 || n == 133 || n == 160 ||
    n == 5760 || (8192 ≤ n && n ≤ 8202) || n == 8232 || n == 8233 ||
    n == 8239 || n == 8287 || n == 12288

/-- Model of `str.strip()` (no argument): drop Unicode whitespace from
both ends. -/
def pyStrip (l : CL) : CL :=
  ((l.dropWhile pyIsSpace).reverse.dropWhile pyIsSpace).reverse

def pyStripS (s : String) : String := String.mk (pyStrip s.data)

/-- Model of `str.strip('"')`: drop double-quote characters from both ends. -/
def pyStripQuote (l : CL) : CL :=
  ((l.dropWhile (· == '"')).reverse.dropWhile (· == '"')).reverse

/-- Model of `str.lower` (ASCII case folding; the URLs and headers
handled by the scripts are ASCII). -/
def pyLowerCL (l : CL) : CL := l.map Char.toLower

def pyLowerS (s : String) : String := String.mk (pyLowerCL s.data)

/-- Is the character one of CPython `str.splitlines`' line boundaries? -/
def pyIsLineBreak (c : Char) : Bool :=
  let n := c.toNat
  n == 10 || n == 13 || n == 11 || n == 12 || n == 28 || n == 29 || n == 30 ||
    n == 133 || n == 8232 || n == 8233

/-- Worker for `pySplitlines`; `cur` holds the current line reversed.
Produces one field per boundary, so a terminating boundary yields a
spurious empty final field that `pySplitlines` removes. -/
def pySplitlinesAux (cur : CL) : CL → List CL
  | [] => [cur.reverse]
  | '\r' :: '\n' :: t => cur.reverse :: pySplitlinesAux [] t
  | c :: t =>
    if pyIsLineBreak c then cur.reverse :: pySplitlinesAux [] t
    else pySplitlinesAux (c :: cur) t

/-- Model of `str.splitlines()`: split at line boundaries (treating
`\r\n` as one boundary), with no trailing empty line. -/
def pySplitlines (l : CL) : List CL :=
  match l with
  | [] => []
  | _ =>
    if pyIsLineBreak (l.getLastD 'a') then (pySplitlinesAux [] l).dropLast
    else pySplitlinesAux [] l

/-- Worker for `splitChar`; `cur` holds the current field reversed. -/
def splitCharAux (sep : Char) (cur : CL) : CL → List CL
  | [] => [cur.reverse]
  | c :: t =>
    if c = sep then cur.reverse :: splitCharAux sep [] t
    else splitCharAux sep (c :: cur) t

/-- Model of `str.split(sep)` for a one-character separator. -/
def splitChar (sep : Char) (l : CL) : List CL := splitCharAux sep [] l

/-- Model of `str.split(sep, 1)` for a one-character separator:
`none` when the separator does not occur. -/
def splitFirst (sep : Char) (l : CL) : Option (CL × CL) :=
  match l.findIdx? (· == sep) with
  | some i => some (l.take i, l.drop (i + 1))
  | none => none

/-- Bool-valued contiguous-substring test, modelling Python `sub in s`. -/
def isInfixCL (sub : CL) : CL → Bool
  | [] => sub.isEmpty
  | l@(_ :: t) => sub.isPrefixOf l || isInfixCL sub t

/-- Model of `s.endswith(suffix)`. -/
def clEndsWith (suffix l : CL) : Bool := suffix.reverse.isPrefixOf l.reverse

/-- Digit-run parser used by `pyInt`: digits with single underscores
allowed between digits (CPython `int()` literal grammar). -/
def pyDigits (acc : Nat) : CL → Option Nat
  | [] => some acc
  | '_' :: rest =>
    match rest with
    | c :: rest' =>
      if c.isDigit then pyDigits (acc * 10 + (c.toNat - 48)) rest' else none
    | [] => none
  | c :: rest =>
    if c.isDigit then pyDigits (acc * 10 + (c.toNat - 48)) rest else none

/-- Model of CPython `int(str)` on ASCII input: surrounding whitespace,
an optional sign, then digits with optional single underscores between
them; `none` models `ValueError`. -/
def pyInt (l : CL) : Option Int :=
  match pyStrip l with
  | '+' :: c :: rest =>
    if c.isDigit then (pyDigits (c.toNat - 48) rest).map Int.ofNat else none
  | '-' :: c :: rest =>
    if c.isDigit then (pyDigits (c.toNat - 48) rest).map (fun n => -(Int.ofNat n))
    else none
  | c :: rest =>
    if c.isDigit then (pyDigits (c.toNat - 48) rest).map Int.ofNat else none
  | [] => none

/-! ## Model of Python insertion-ordered string dicts -/

abbrev PyDict := List (String × String)

/-- Model of `d[k] = v` on a Python dict: update the existing binding in
place (keeping insertion order) or append a new one. -/
def dictSet (d : PyDict) (k v : String) : PyDict :=
  if (d.lookup k).isSome then d.map (fun p => if p.1 = k then (k, v) else p)
  else d ++ [(k, v)]

/-- Model of `d.update(src)` where `src` is itself a dict (assoc list in
insertion order). -/
def dictUpdate (d : PyDict) (src : PyDict) : PyDict :=
  src.foldl (fun acc p => dictSet acc p.1 p.2) d

/-! ## Model of `urllib.parse.urlparse` (CPython 3.11), restricted to the
`netloc` and `path` components consumed by `classify_url`. -/

/-- Characters valid in a URL scheme (`scheme_chars` in CPython). -/
def isSchemeChar (c : Char) : Bool :=
  c.isAlpha || c.isDigit || c == '+' || c == '-' || c == '.'

/-- `uses_params` from CPython's urllib.parse: schemes whose path gets a
`;params` suffix split off by `urlparse`. -/
def usesParams : List String :=
  ["", "ftp", "hdl", "prospero", "http", "imap", "https", "shttp", "rtsp",
   "rtspu", "sip", "sips", "mms", "sftp", "tel"]

/-- Index of the last occurrence of a character, if any (`str.rfind`). -/
def rfindIdx (p : Char → Bool) (l : CL) : Option Nat :=
  (l.reverse.findIdx? p).map (fun r => l.length - 1 - r)

/-- First occurrence of a character at or after `start` (`str.find(c, start)`). -/
def findIdxFrom (p : Char → Bool) (start : Nat) (l : CL) : Option Nat :=
  ((l.drop start).findIdx? p).map (· + start)

/-- Model of `_splitparams`: split `;params` off the path. -/
def pySplitparams (url : CL) : CL :=
  if url.any (· == '/') then
    match findIdxFrom (· == ';') ((rfindIdx (· == '/') url).getD 0) url with
    | some i => url.take i
    | none => url
  else
    match url.findIdx? (· == ';') with
    | some i => url.take i
    | none => url

/-- Path component after the netloc: strip the fragment (first `#`),
then the query (first `?`), then `;params` when the scheme uses them. -/
def pyPathOf (scheme : String) (u : CL) : CL :=
  let noFrag := match u.findIdx? (· == '#') with | some i => u.take i | none => u
  let noQuery := match noFrag.findIdx? (· == '?') with | some i => noFrag.take i | none => noFrag
  if scheme ∈ usesParams ∧ noQuery.any (· == ';') then pySplitparams noQuery
  else noQuery

/-- Model of `urllib.parse.urlparse(url)` returning `(netloc, path)`.
Follows CPython 3.11 `urlsplit`: strip leading C0-control/space
characters, remove `\t\r\n`, split a well-formed scheme, take the
netloc after `//` up to the first of `/?#` (raising `ValueError` on
mismatched IPv6 brackets), then strip fragment, query and params.  The
non-ASCII NFKC netloc check is modelled as passing (the scripts only
meet ASCII hosts). -/
def pyUrlparseNetlocPath (url : String) : Except String (String × String) :=
  let u0 := (url.data.dropWhile (fun c => c.toNat ≤ 32)).filter
    (fun c => !(c == '\t' || c == '\r' || c == '\n'))
  let schemeUrl :=
    match u0.findIdx? (· == ':') with
    | some i =>
      if decide (0 < i) && (match u0.head? with | some c => c.isAlpha | none => false) &&
          (u0.take i).all isSchemeChar then
        (String.mk (pyLowerCL (u0.take i)), u0.drop (i + 1))
      else ("", u0)
    | none => ("", u0)
  let scheme := schemeUrl.1
  let u1 := schemeUrl.2
  match u1 with
  | '/' :: '/' :: rest =>
    let delim := (rest.findIdx? (fun c => c == '/' || c == '?' || c == '#')).getD rest.length
    let netloc := rest.take delim
    let u2 := rest.drop delim
    if (netloc.any (· == '[') && !netloc.any (· == ']')) ||
        (netloc.any (· == ']') && !netloc.any (· == '[')) then
      Except.error "Invalid IPv6 URL"
    else
      Except.ok (String.mk netloc, String.mk (pyPathOf scheme u2))
  | _ => Except.ok ("", String.mk (pyPathOf scheme u1))

/-! ## downie_dispatch.py -/

inductive PyErr where
  | dispatchError (msg : String)
  | valueError (msg : String)
  | typeError (msg : String)
  | runtimeError (msg : String)
deriving DecidableEq, Repr

/-- Model of `host.split("@")[-1]` (drop a leading user-info segment). -/
def hostAfterAt (host : String) : String :=
  String.mk ((splitChar '@' host.data).getLastD [])

/-- Model of `host.split(":", 1)[0]` (drop a trailing port). -/
def hostBeforeColon (host : String) : String :=
  match splitFirst ':' host.data with
  | some p => String.mk p.1
  | none => host

/-- The suffix-matching tail of `classify_url` (lines 73-77 of
downie_dispatch.py). -/
def hostClass (h : String) : String :=
  if clEndsWith "youtube.com".data h.data || clEndsWith "youtu.be".data h.data then
    "youtube"
  else if clEndsWith "x.com".data h.data || clEndsWith "twitter.com".data h.data then
    "twitter"
  else "other"

/-- Embedding of `classify_url` (downie_dispatch.py lines 66-77). -/
def classify_url (url : String) : Except PyErr String :=
  match pyUrlparseNetlocPath url with
  | .error e => .error (.valueError e)
  | .ok (netloc, path) =>
    let host := pyLowerS (if netloc = "" then path else netloc)
    if host = "" then .error (.dispatchError "URL must include a hostname")
    else .ok (hostClass (hostBeforeColon (hostAfterAt host)))

/-- Result of one `subprocess.run(["open", "-g", "-a", app, url], ...)`
invocation; the runner itself is an external collaborator. -/
structure RunResult where
  returncode : Int
  stderr : String
  stdout : String
deriving DecidableEq, Repr

def DOWNIE_APP_CANDIDATES : List String := ["Downie 4", "Downie"]

/-- Outcome of `send_to_downie`: the URLs for which a hand-off was
attempted (in order), the URLs reported as sent, and the
`DispatchError` message when the function raised. -/
structure SinkOutcome where
  attempted : List String
  sent : List String
  error : Option String
deriving DecidableEq, Repr

/-- Inner `for app in DOWNIE_APP_CANDIDATES` loop of `send_to_downie`
(downie_dispatch.py lines 88-97): returns the apps tried in order,
whether some app exited with code 0, and the final `last_error`. -/
def attemptAppsGo (run : String → String → RunResult) (u : String)
    (le : Option String) : List String → List String × Bool × Option String
  | [] => ([], false, le)
  | a :: t =>
    let r := run a u
    if r.returncode = 0 then ([a], true, le)
    else
      let fallback := "open -a " ++ a ++ " failed"
      let msg :=
        if pyStripS r.stderr ≠ "" then pyStripS r.stderr
        else if pyStripS r.stdout ≠ "" then pyStripS r.stdout
        else fallback
      let z := attemptAppsGo run u (some msg) t
      (a :: z.1, z.2.1, z.2.2)

def attemptApps (run : String → String → RunResult) (u : String) :
    List String × Bool × Option String :=
  attemptAppsGo run u none DOWNIE_APP_CANDIDATES

/-- Worker for `send_to_downie` carrying the `seen` set. -/
def sendAux (run : String → String → RunResult) (seen : List String) :
    List String → SinkOutcome
  | [] => ⟨[], [], none⟩
  | u :: rest =>
    let n := pyStripS u
    if n = "" ∨ n ∈ seen then sendAux run seen rest
    else
      let z := attemptApps run n
      if z.2.1 then
        let o := sendAux run (n :: seen) rest
        ⟨n :: o.attempted, n :: o.sent, o.error⟩
      else
        ⟨[n], [],
         some ("Failed to hand off to Downie 4: " ++
           (match z.2.2 with
            | some s => if s = "" then "unknown error" else s
            | none => "unknown error"))⟩

/-- Embedding of `send_to_downie` (downie_dispatch.py lines 80-100).
The subprocess runner is a parameter; raising `DispatchError` stops the
loop, recorded in `SinkOutcome.error`. -/
def send_to_downie (run : String → String → RunResult) (urls : List String) :
    SinkOutcome :=
  sendAux run [] urls

/-! ## cate/twitter_video.py: cookie pipeline -/

/-- Embedding of `parse_cookie_string` (twitter_video.py lines 200-208). -/
def parse_cookie_string (cookie_str : String) : PyDict :=
  (splitChar ';' cookie_str.data).foldl
    (fun cookies part =>
      let segment := pyStrip part
      if segment = [] ∨ (splitFirst '=' segment).isNone then cookies
      else
        match splitFirst '=' segment with
        | some (name, value) =>
          dictSet cookies (String.mk (pyStrip name)) (String.mk (pyStrip value))
        | none => cookies)
    []

/-- Per-line parsing of `load_cookie_file` (twitter_video.py lines
211-229), applied to the file's text content; the file system read
itself is a parameter of `resolve_cookies`. -/
def load_cookie_lines (content : String) : PyDict :=
  (splitChar '\n' content.data).foldl
    (fun cookies line =>
      let stripped := pyStrip line
      if stripped = [] ∨ ['#'].isPrefixOf stripped then cookies
      else
        let viaTab :=
          if stripped.any (· == '\t') then
            let parts := splitChar '\t' stripped
            if 7 ≤ parts.length then
              some (dictSet cookies (String.mk (parts.getD 5 []))
                (String.mk (parts.getD 6 [])))
            else none
          else none
        match viaTab with
        | some updated => updated
        | none =>
          match splitFirst '=' stripped with
          | some (name, value) =>
            dictSet cookies (String.mk (pyStrip name)) (String.mk (pyStrip value))
          | none => cookies)
    []

/-- Embedding of `build_cookie_jar` (twitter_video.py lines 232-238):
merge the sources in order, later sources overriding earlier ones;
falsy sources (`None` or empty) are skipped; an empty merge is `None`. -/
def build_cookie_jar (sources : List (Option PyDict)) : Option PyDict :=
  let merged := sources.foldl
    (fun acc s =>
      match s with
      | some d => if d = [] then acc else dictUpdate acc d
      | none => acc)
    []
  if merged = [] then none else some merged

/-- Python `a or b` on optional strings, where `None` and `""` are falsy. -/
def pyOrOpt (a b : Option String) : Option String :=
  match a with
  | some s => if s = "" then b else some s
  | none => b

/-- Python truthiness filter on an optional string. -/
def truthyOpt (a : Option String) : Option String :=
  match a with
  | some s => if s = "" then none else some s
  | none => none

/-- The arguments namespace consumed by `resolve_cookies`: as built by
`downie_dispatch.resolve_twitter_cookies` it carries `cookie`,
`cookie_file` and `cookie_json`. -/
structure TwitterArgs where
  cookie : Option String
  cookie_file : Option String
  cookie_json : Option String
deriving DecidableEq, Repr

/-- Embedding of `resolve_cookies` (twitter_video.py lines 393-403).
`envCookie`/`envCookieFile` model `os.environ.get`; `readFile` models
the file system (`none` = `FileNotFoundError`); `cmdCookies` models
`_fetch_cookies_via_command` (`Except.error` = an exception, which the
source catches and turns into no cookies).  The body reads only
`args.cookie` and `args.cookie_file`; `args.cookie_json` is never
consulted. -/
def resolve_cookies (args : TwitterArgs) (envCookie envCookieFile : Option String)
    (readFile : String → Option String)
    (cmdCookies : Except String (Option PyDict)) : Except String (Option PyDict) :=
  let inline_cookie := pyOrOpt args.cookie envCookie
  let cookie_file := pyOrOpt args.cookie_file envCookieFile
  let inline :=
    match truthyOpt inline_cookie with
    | some s => some (parse_cookie_string s)
    | none => none
  let fileLoad : Except String (Option PyDict) :=
    match truthyOpt cookie_file with
    | some p =>
      match readFile p with
      | some content => .ok (some (load_cookie_lines content))
      | none => .error ("Cookie file not found: " ++ p)
    | none => .ok none
  match fileLoad with
  | .error e => .error e
  | .ok file_based =>
    let command_cookies := match cmdCookies with | .ok c => c | .error _ => none
    .ok (build_cookie_jar [command_cookies, file_based, inline])

/-! ## cate/twitter_video.py: media-variant ranking -/

/-- A variant dict from the social API's `variants` list, with the
fields the ranking reads, typed as the API supplies them (`none`
models an absent key). -/
structure MediaVariant where
  content_type : Option String
  bitrate : Option Int
  height : Option Int
  width : Option Int
  url : Option String
deriving DecidableEq, Repr

/-- `(v.get("content_type") or "").lower()`: absent and empty are both
the empty string. -/
def ctLower (v : MediaVariant) : String :=
  pyLowerS (match v.content_type with | some s => s | none => "")

/-- The `score` closure of `choose_best_variant` (twitter_video.py
lines 245-251): `("mp4" in content_type, bitrate, height, width)` with
absent numerics as 0. -/
def variantScore (v : MediaVariant) : Int × Int × Int × Int :=
  let mp4_bonus : Int := if isInfixCL "mp4".data (ctLower v).data then 1 else 0
  (mp4_bonus, (v.bitrate.getD 0), (v.height.getD 0), (v.width.getD 0))

/-- Python `>` on 4-tuples: lexicographic strict comparison. -/
def tup4Gt (a b : Int × Int × Int × Int) : Bool :=
  decide (b.1 < a.1 ∨ (a.1 = b.1 ∧ (b.2.1 < a.2.1 ∨ (a.2.1 = b.2.1 ∧
    (b.2.2.1 < a.2.2.1 ∨ (a.2.2.1 = b.2.2.1 ∧ b.2.2.2 < a.2.2.2))))))

/-- Python `max(pool, key=score)`: keeps the first element on ties,
replacing only on a strictly greater key. -/
def pyMaxByScore : List MediaVariant → Option MediaVariant
  | [] => none
  | a :: t =>
    some (t.foldl (fun best v =>
      if tup4Gt (variantScore v) (variantScore best) then v else best) a)

/-- Embedding of `choose_best_variant` (twitter_video.py lines 241-254):
empty list gives `None`; the ranked pool is the sub-list whose content
type is exactly `video/mp4` when that sub-list is non-empty, otherwise
all variants; the winner is the stable lexicographic maximum. -/
def choose_best_variant (variants : List MediaVariant) : Option MediaVariant :=
  match variants with
  | [] => none
  | materialized =>
    let candidates := materialized.filter (fun v => ctLower v = "video/mp4")
    let ranked_pool := if candidates.isEmpty then materialized else candidates
    pyMaxByScore ranked_pool

/-! ## cate/twitter_video.py: non-JSON API error classification -/

/-- Case-insensitive character equality (`re.IGNORECASE`). -/
def ciEq (a b : Char) : Bool := a.toLower == b.toLower

/-- Case-insensitive prefix test. -/
def ciStartsWith : CL → CL → Bool
  | [], _ => true
  | _ :: _, [] => false
  | p :: ps, c :: cs => ciEq p c && ciStartsWith ps cs

/-- Does the pattern `property=['"]og:description['"]` (case-insensitive
literal text) start here?  The two quote classes of the regex are
independent, so the closing quote need not equal the opening one. -/
def propHere (s : CL) : Bool :=
  ciStartsWith "property=".data s &&
    (match s.drop 9 with
     | q :: t =>
       (q == '"' || q == '\'') && ciStartsWith "og:description".data t &&
         (match t.drop 14 with
          | q2 :: _ => q2 == '"' || q2 == '\''
          | [] => false)
     | [] => false)

/-- Does the property pattern occur anywhere in the list? -/
def propSearch : CL → Bool
  | [] => false
  | l@(_ :: t) => propHere l || propSearch t

/-- The meta-tag regex `<meta[^>]+property=['"]og:description['"][^>]*>`
matched at the start of `l`; returns the matched tag (group 0).  Since
every regex piece between `<meta` and the final `>` excludes `>`, a
match at this position extends exactly to the first `>` after `<meta`,
and exists iff the property pattern occurs at offset ≥ 1 before it. -/
def metaMatchAt (l : CL) : Option CL :=
  if ciStartsWith "<meta".data l then
    let after := l.drop 5
    match after.findIdx? (· == '>') with
    | some e =>
      let seg := after.take e
      match seg with
      | [] => none
      | _ :: segTail => if propSearch segTail then some (l.take (5 + e + 1)) else none
    | none => none
  else none

/-- `re.search` for the meta-tag regex: leftmost match wins. -/
def metaTagSearch : CL → Option CL
  | [] => none
  | l@(_ :: t) =>
    match metaMatchAt l with
    | some tag => some tag
    | none => metaTagSearch t

/-- The content regex `content=['"](?P<msg>[^'"]+)['"]` matched at the
start of `s`; returns the `msg` group. -/
def contentHere (s : CL) : Option CL :=
  if ciStartsWith "content=".data s then
    match s.drop 8 with
    | q :: t =>
      if q == '"' || q == '\'' then
        let msg := t.takeWhile (fun c => !(c == '"' || c == '\''))
        if msg ≠ [] ∧ t.drop msg.length ≠ [] then some msg else none
      else none
    | [] => none
  else none

/-- `re.search` for the content regex: leftmost match wins. -/
def contentSearch : CL → Option CL
  | [] => none
  | l@(_ :: t) =>
    match contentHere l with
    | some m => some m
    | none => contentSearch t

/-- Step (a) of `_extract_html_error_message` (twitter_video.py lines
140-147): the og:description meta tag's content attribute, decoded and
stripped, when non-empty. -/
def metaMessage (uesc : CL → CL) (payload : CL) : Option CL :=
  match metaTagSearch payload with
  | none => none
  | some tag =>
    match contentSearch tag with
    | none => none
    | some raw =>
      let message := pyStrip (uesc raw)
      if message = [] then none else some message

/-- Leftmost case-insensitive occurrence of `pat`: the remainder after it. -/
def ciFindAfter (pat : CL) : CL → Option CL
  | [] => if pat = [] then some [] else none
  | l@(_ :: t) =>
    if ciStartsWith pat l then some (l.drop pat.length)
    else ciFindAfter pat t

/-- The part of `l` strictly before the leftmost case-insensitive
occurrence of `pat`, when `pat` occurs. -/
def ciTakeBefore (pat : CL) : CL → Option CL
  | [] => if pat = [] then some [] else none
  | l@(c :: t) =>
    if ciStartsWith pat l then some []
    else (ciTakeBefore pat t).map (c :: ·)

/-- Step (b) of `_extract_html_error_message` (lines 149-153): the
`<title>…</title>` regex (`.*?`, DOTALL), decoded and stripped, when
non-empty. -/
def titleMessage (uesc : CL → CL) (payload : CL) : Option CL :=
  match ciFindAfter "<title>".data payload with
  | none => none
  | some afterOpen =>
    match ciTakeBefore "</title>".data afterOpen with
    | none => none
    | some content =>
      let title := pyStrip (uesc content)
      if title = [] then none else some title

/-- Step (c) of `_extract_html_error_message` (lines 155-158): first
line whose stripped, decoded form is non-empty. -/
def lineMessage (uesc : CL → CL) (payload : CL) : Option CL :=
  (pySplitlines payload).findSome? (fun l =>
    let line := uesc (pyStrip l)
    if line = [] then none else some line)

/-- Embedding of `_extract_html_error_message` (twitter_video.py lines
139-159); `uesc` models `html.unescape`. -/
def extract_html_error_message (uesc : CL → CL) (payload : CL) : Option CL :=
  match metaMessage uesc payload with
  | some m => some m
  | none =>
    match titleMessage uesc payload with
    | some t => some t
    | none => lineMessage uesc payload

/-- `"; ".join(details)`. -/
def joinSemis : List CL → CL
  | [] => []
  | [x] => x
  | x :: xs => x ++ "; ".data ++ joinSemis xs

/-- Model of CPython `repr(str)` for ASCII payloads: quote choice and
backslash/quote/control escaping. -/
def pyReprChar (quote : Char) (c : Char) : CL :=
  if c = '\\' then ['\\', '\\']
  else if c = quote then ['\\', quote]
  else if c = '\n' then ['\\', 'n']
  else if c = '\r' then ['\\', 'r']
  else if c = '\t' then ['\\', 't']
  else if c.toNat < 32 || c.toNat == 127 then
    ['\\', 'x', "0123456789abcdef".data.getD (c.toNat / 16) '0',
     "0123456789abcdef".data.getD (c.toNat % 16) '0']
  else [c]

def pyRepr (s : CL) : CL :=
  let quote := if s.any (· == '\'') && !s.any (· == '"') then '"' else '\''
  quote :: (s.foldr (fun c acc => pyReprChar quote c ++ acc) [quote])

/-- The error `details` built in the non-JSON branch of
`extract_with_vxtwitter` (twitter_video.py lines 297-313); `tomb`
models the best-effort `_describe_tweet_unavailability` network lookup. -/
def vx_nonjson_error (uesc : CL → CL) (tomb : Option CL) (hdr : Option CL)
    (payload : CL) : CL :=
  let content_type := pyLowerCL (hdr.getD [])
  let message := extract_html_error_message uesc payload
  let details0 :=
    match message with
    | some m => [m]
    | none =>
      let snippet := pySplitlines (pyStrip payload)
      let preview := match snippet with | s :: _ => s.take 120 | [] => []
      ["unexpected non-JSON response (content-type: ".data ++
        (if content_type = [] then "unknown".data else content_type) ++
        "; payload: ".data ++ pyRepr preview ++ ")".data]
  let details :=
    match tomb with
    | some t => details0 ++ ["tweet status: ".data ++ t]
    | none => details0
  "vxtwitter error: ".data ++ joinSemis details

/-- The `Content-Type` gate of `extract_with_vxtwitter` (lines 294-313):
a non-JSON content type raises with the combined detail message. -/
def vx_content_type_gate (uesc : CL → CL) (tomb : Option CL) (hdr : Option CL)
    (payload : CL) : Except CL Unit :=
  let content_type := pyLowerCL (hdr.getD [])
  if isInfixCL "application/json".data content_type then .ok ()
  else .error (vx_nonjson_error uesc tomb hdr payload)

/-! ## downie_dispatch.py: extract_links -/

/-- A resolved tweet video (twitter_video.py lines 191-197). -/
structure ExtractedVideo where
  identifier : String
  url : String
  bitrate : Option Int
  height : Option Int
  width : Option Int
deriving DecidableEq, Repr

/-- Embedding of `extract_links` (downie_dispatch.py lines 131-138).
The Social API Extractor is passed as a parameter.  For any other
strategy the source calls `other_video.extract_videos(url,
cookies=cookies)`, but `extract_videos` (other_video.py line 176) is
defined with the single parameter `url`, so under Python call semantics
this call raises `TypeError` before the extractor body runs; the
embedding records that as an immediate error. -/
def extract_links
    (twitterExtract : String → Option PyDict → Except String (List ExtractedVideo))
    (url : String) (strategy : String) (cookies : Option PyDict) :
    Except PyErr (List String) :=
  if strategy = "youtube" then .ok [url]
  else if strategy = "twitter" then
    match twitterExtract url cookies with
    | .ok videos => .ok ((videos.map (·.url)).filter (· ≠ ""))
    | .error e => .error (.runtimeError e)
  else
    .error (.typeError
      "extract_videos() got an unexpected keyword argument cookies")

/-! ## cate/other_video.py: HLS variant selection -/

/-- Embedding of `parse_stream_inf_attributes` (other_video.py lines
90-99): split on commas, then on the first `=`, stripping whitespace
and surrounding double quotes from values. -/
def parse_stream_inf_attributes (attr : CL) : PyDict :=
  (splitChar ',' attr).foldl
    (fun result part =>
      match splitFirst '=' part with
      | some (key, value) =>
        dictSet result (String.mk (pyStrip key))
          (String.mk (pyStripQuote (pyStrip value)))
      | none => result)
    []

/-- Python `>` on 2-tuples: lexicographic strict comparison. -/
def tup2Gt (a b : Int × Int) : Bool :=
  decide (b.1 < a.1 ∨ (a.1 = b.1 ∧ b.2 < a.2))

/-- Python `a or b` on optional attr values (absent or empty falsy). -/
def pyOrAttr (a b : Option String) : Option String :=
  match a with
  | some s => if s = "" then b else some s
  | none => b

/-- The `(height, bandwidth)` score computed from a `#EXT-X-STREAM-INF`
attribute dict (other_video.py lines 124-138): height from the part of
`RESOLUTION` after the first `x` of its lowercase form — but only when
the original value contains a lowercase `x` — and bandwidth from
`AVERAGE-BANDWIDTH` falling back to `BANDWIDTH`; -1 on any failure. -/
def streamInfScore (attrs : PyDict) : Int × Int :=
  let resolution := (attrs.lookup "RESOLUTION").getD ""
  let height :=
    if resolution.data.any (· == 'x') then
      match splitFirst 'x' (pyLowerCL resolution.data) with
      | some (_, part1) => (pyInt part1).getD (-1)
      | none => -1
    else -1
  let bw := pyOrAttr (attrs.lookup "AVERAGE-BANDWIDTH") (attrs.lookup "BANDWIDTH")
  let bandwidth :=
    match bw with
    | some s => if s = "" then -1 else (pyInt s.data).getD (-1)
    | none => -1
  (height, bandwidth)

/-- Everything after the first `:` (`line.split(":", 1)[1]`). -/
def afterFirstColon (l : CL) : CL :=
  match splitFirst ':' l with
  | some (_, rest) => rest
  | none => []

def streamInfTag : CL := "#EXT-X-STREAM-INF".data

def streamInfTagColon : CL := "#EXT-X-STREAM-INF:".data

/-- The `(height, bandwidth)` score of one `#EXT-X-STREAM-INF:` line. -/
def lineScore (l : CL) : Int × Int :=
  streamInfScore (parse_stream_inf_attributes (afterFirstColon l))

/-- Single-pass embedding of the `while i < len(lines)` scan of
`choose_best_hls_variant` (other_video.py lines 119-156), emitting the
scored variants in encounter order.  The index loop maps onto the
state `pending`: when a `#EXT-X-STREAM-INF:` line is met its score
becomes pending and the inner `while j` loop's skipping of `#`-lines
(tags included, which are therefore never themselves scored) is the
pending-state skip; the first non-`#` line is joined against the
master URL and, when truthy, emitted with the pending score — the
outer loop resumes right after that line (`i = j`, then `i += 1`). -/
def scanVariants (join : CL → CL → CL) (master : CL) :
    Option (Int × Int) → List CL → List ((Int × Int) × CL)
  | _, [] => []
  | some sc, l :: rest =>
    if ['#'].isPrefixOf l then scanVariants join master (some sc) rest
    else
      let stream_url := join master l
      (if stream_url = [] then [] else [(sc, stream_url)]) ++
        scanVariants join master none rest
  | none, l :: rest =>
    if streamInfTagColon.isPrefixOf l then
      scanVariants join master (some (lineScore l)) rest
    else scanVariants join master none rest

/-- `[line.strip() for line in playlist.splitlines() if line.strip()]`. -/
def prepLines (body : CL) : List CL :=
  ((pySplitlines body).map pyStrip).filter (fun l => l ≠ [])

def hlsScan (join : CL → CL → CL) (master body : CL) : List ((Int × Int) × CL) :=
  scanVariants join master none (prepLines body)

/-- The best-tracking fold of `choose_best_hls_variant` (lines 115-153):
start from `((-1, -1), None)` and replace only on a strictly greater
score. -/
def hlsFold (acc : (Int × Int) × Option CL) (s : List ((Int × Int) × CL)) :
    (Int × Int) × Option CL :=
  s.foldl (fun acc v => if tup2Gt v.1 acc.1 then (v.1, some v.2) else acc) acc

/-- The pure selection core of `choose_best_hls_variant` applied to a
fetched playlist body (other_video.py lines 111-157): a body without
`#EXT-X-STREAM-INF` is returned as the master URL itself; otherwise the
strictly-best scored variant URL, or the master when none was tracked
(`best_url or master_url`). -/
def selectVariantUrl (join : CL → CL → CL) (master body : CL) : CL :=
  if isInfixCL streamInfTag body = false then master
  else
    match (hlsFold ((-1, -1), none) (hlsScan join master body)).2 with
    | some u => if u = [] then master else u
    | none => master

/-- Embedding of `choose_best_hls_variant` (other_video.py lines
102-157): `fetch url referer` models the `requests.get` of the master
playlist (with the referer header and 20s timeout); a transport/HTTP
failure raises `ArchiveExtractionError`; `join` models
`urllib.parse.urljoin`. -/
def choose_best_hls_variant (fetch : String → String → Except String String)
    (join : CL → CL → CL) (master_url referer : String) : Except String String :=
  match fetch master_url referer with
  | .error e => .error ("Failed to load m3u8: " ++ e)
  | .ok body =>
    .ok (String.mk (selectVariantUrl join master_url.data body.data))

/-! ## cate/other_video.py: page-config resolution -/

/-- Untyped JSON values, as parsed from a player widget's
`data-config` attribute. -/
inductive JValue where
  | jnull
  | jbool (b : Bool)
  | jnum (n : Int)
  | jstr (s : String)
  | jarr (xs : List JValue)
  | jobj (fields : List (String × JValue))

/-- `config.get(key)` on a JSON object. -/
def jGet (fields : List (String × JValue)) (k : String) : Option JValue :=
  (fields.find? (fun p => p.1 == k)).map (·.2)

/-- The `video.url` extraction of `resolve_video_url` (other_video.py
lines 160-166): the config must be a dict with a dict `video` member
whose `url` is a truthy string. -/
def embeddedVideoUrl (config : JValue) : Option String :=
  match config with
  | .jobj fields =>
    match jGet fields "video" with
    | some (.jobj vf) =>
      match jGet vf "url" with
      | some (.jstr u) => if u = "" then none else some u
      | _ => none
    | _ => none
  | _ => none

/-- Embedding of `resolve_video_url` (other_video.py lines 160-173):
strip the embedded URL; when the part of it before `?` contains `m3u8`
(case-insensitively) run the HLS selector, falling back to the
stripped URL on an `ArchiveExtractionError`; otherwise return the
stripped URL as-is. -/
def resolve_video_url (fetch : String → String → Except String String)
    (join : CL → CL → CL) (config : JValue) (referer : String) : Option String :=
  match embeddedVideoUrl config with
  | none => none
  | some u0 =>
    let url := pyStripS u0
    let beforeQ := match splitFirst '?' url.data with
                   | some (a, _) => a
                   | none => url.data
    if isInfixCL "m3u8".data (pyLowerCL beforeQ) then
      match choose_best_hls_variant fetch join url referer with
      | .ok best => some best
      | .error _ => some url
    else some url

/-- One `VideoResult` of the generic extractor. -/
structure VideoResult where
  index : Nat
  url : String
  note : Option String
deriving DecidableEq, Repr

/-- The `for idx, cfg in enumerate(configs, 1)` loop of `extract_videos`
(other_video.py lines 180-185), applied to the parsed player configs
(upstream: `ensure_archive_url`, `fetch_html`, `parse_dplayer_configs`);
the index advances for every config and only truthy resolutions are
kept. -/
def extractVideosFromConfigs (fetch : String → String → Except String String)
    (join : CL → CL → CL) (referer : String) (idx : Nat) :
    List JValue → List VideoResult
  | [] => []
  | cfg :: rest =>
    match resolve_video_url fetch join cfg referer with
    | some r =>
      if r = "" then extractVideosFromConfigs fetch join referer (idx + 1) rest
      else ⟨idx, r, none⟩ :: extractVideosFromConfigs fetch join referer (idx + 1) rest
    | none => extractVideosFromConfigs fetch join referer (idx + 1) rest

/-! ## Definitions taken from the specification's wording
(for refinement comparisons, not from the source) -/

/-- From the spec's words: the first-encountered element whose
`(height, bandwidth)` tuple is the lexicographic maximum (later
elements replace only when strictly greater). -/
def firstMax2 : List ((Int × Int) × CL) → Option ((Int × Int) × CL)
  | [] => none
  | v :: t =>
    match firstMax2 t with
    | none => some v
    | some w => if tup2Gt w.1 v.1 then some w else some v

/-- From the spec's words: the first-encountered media variant whose
4-tuple ranking key is the lexicographic maximum. -/
def firstMax4 : List MediaVariant → Option MediaVariant
  | [] => none
  | v :: t =>
    match firstMax4 t with
    | none => some v
    | some w => if tup4Gt (variantScore w) (variantScore v) then some w else some v

/-- From the spec's words: an absolute URL begins with a non-empty
alphabetic-led scheme followed by `://`. -/
def specAbsoluteUrl (u : String) : Bool :=
  let scheme := u.data.takeWhile isSchemeChar
  (match u.data.head? with | some c => c.isAlpha | none => false) &&
    "://".data.isPrefixOf (u.data.drop scheme.length)

/-- A concrete instance of the abstract `html.unescape` parameter,
decoding the `&amp;` entity; used to instantiate theorems on fixtures. -/
def unescapeAmp : CL → CL
  | [] => []
  | '&' :: 'a' :: 'm' :: 'p' :: ';' :: t => '&' :: unescapeAmp t
  | c :: t => c :: unescapeAmp t

/-! ## Helper lemmas: the lexicographic tuple orders -/

theorem tup2Gt_true_iff (a b : Int × Int) :
    tup2Gt a b = true ↔ (b.1 < a.1 ∨ (a.1 = b.1 ∧ b.2 < a.2)) := by
  simp [tup2Gt]

theorem tup2Gt_false_iff (a b : Int × Int) :
    tup2Gt a b = false ↔ ¬(b.1 < a.1 ∨ (a.1 = b.1 ∧ b.2 < a.2)) := by
  simp [tup2Gt]

theorem tup2Gt_irrefl (a : Int × Int) : tup2Gt a a = false := by
  obtain ⟨a1, a2⟩ := a
  rw [tup2Gt_false_iff]
  omega

theorem tup2Gt_neg_trans {a b c : Int × Int} (h1 : tup2Gt a b = false)
    (h2 : tup2Gt b c = false) : tup2Gt a c = false := by
  obtain ⟨a1, a2⟩ := a; obtain ⟨b1, b2⟩ := b; obtain ⟨c1, c2⟩ := c
  rw [tup2Gt_false_iff] at *
  omega

theorem tup2Gt_trans {a b c : Int × Int} (h1 : tup2Gt a b = true)
    (h2 : tup2Gt b c = true) : tup2Gt a c = true := by
  obtain ⟨a1, a2⟩ := a; obtain ⟨b1, b2⟩ := b; obtain ⟨c1, c2⟩ := c
  rw [tup2Gt_true_iff] at *
  omega

theorem tup2Gt_asymm {a b : Int × Int} (h : tup2Gt a b = true) :
    tup2Gt b a = false := by
  obtain ⟨a1, a2⟩ := a; obtain ⟨b1, b2⟩ := b
  rw [tup2Gt_true_iff] at h
  rw [tup2Gt_false_iff]
  omega

theorem tup4Gt_true_iff (a b : Int × Int × Int × Int) :
    tup4Gt a b = true ↔ (b.1 < a.1 ∨ (a.1 = b.1 ∧ (b.2.1 < a.2.1 ∨ (a.2.1 = b.2.1 ∧
      (b.2.2.1 < a.2.2.1 ∨ (a.2.2.1 = b.2.2.1 ∧ b.2.2.2 < a.2.2.2)))))) := by
  simp [tup4Gt]

theorem tup4Gt_false_iff (a b : Int × Int × Int × Int) :
    tup4Gt a b = false ↔ ¬(b.1 < a.1 ∨ (a.1 = b.1 ∧ (b.2.1 < a.2.1 ∨ (a.2.1 = b.2.1 ∧
      (b.2.2.1 < a.2.2.1 ∨ (a.2.2.1 = b.2.2.1 ∧ b.2.2.2 < a.2.2.2)))))) := by
  simp [tup4Gt]

theorem tup4Gt_trans {a b c : Int × Int × Int × Int} (h1 : tup4Gt a b = true)
    (h2 : tup4Gt b c = true) : tup4Gt a c = true := by
  obtain ⟨a1, a2, a3, a4⟩ := a; obtain ⟨b1, b2, b3, b4⟩ := b
  obtain ⟨c1, c2, c3, c4⟩ := c
  rw [tup4Gt_true_iff] at *
  omega

theorem tup4Gt_neg_trans {a b c : Int × Int × Int × Int} (h1 : tup4Gt a b = false)
    (h2 : tup4Gt b c = false) : tup4Gt a c = false := by
  obtain ⟨a1, a2, a3, a4⟩ := a; obtain ⟨b1, b2, b3, b4⟩ := b
  obtain ⟨c1, c2, c3, c4⟩ := c
  rw [tup4Gt_false_iff] at *
  omega

/-! ## Helper lemmas: the strict-update fold selects the first maximum -/

theorem firstMax2_eq_none {s : List ((Int × Int) × CL)} :
    firstMax2 s = none ↔ s = [] := by
  cases s with
  | nil => simp [firstMax2]
  | cons v t =>
    simp only [firstMax2]
    cases h : firstMax2 t with
    | none => simp
    | some w => by_cases hgt : tup2Gt w.1 v.1 <;> simp [hgt]

theorem firstMax2_mem {s : List ((Int × Int) × CL)} {v : (Int × Int) × CL}
    (h : firstMax2 s = some v) : v ∈ s := by
  induction s generalizing v with
  | nil => simp [firstMax2] at h
  | cons a t ih =>
    simp only [firstMax2] at h
    cases ht : firstMax2 t with
    | none => rw [ht] at h; simp at h; simp [h]
    | some w =>
      rw [ht] at h
      by_cases hgt : tup2Gt w.1 a.1 = true
      · simp [hgt] at h
        exact List.mem_cons_of_mem a (ih (h ▸ ht))
      · rw [Bool.not_eq_true] at hgt
        simp [hgt] at h
        simp [h]

theorem firstMax2_max {s : List ((Int × Int) × CL)} {v : (Int × Int) × CL}
    (h : firstMax2 s = some v) : ∀ w ∈ s, tup2Gt w.1 v.1 = false := by
  induction s generalizing v with
  | nil => simp [firstMax2] at h
  | cons a t ih =>
    simp only [firstMax2] at h
    intro w hw
    cases ht : firstMax2 t with
    | none =>
      rw [ht] at h
      simp at h
      rcases firstMax2_eq_none.mp ht with rfl
      rcases List.mem_singleton.mp hw with rfl
      rw [← h]
      exact tup2Gt_irrefl w.1
    | some m =>
      rw [ht] at h
      by_cases hgt : tup2Gt m.1 a.1 = true
      · simp [hgt] at h
        rcases List.mem_cons.mp hw with rfl | hw'
        · rw [← h]
          exact tup2Gt_asymm hgt
        · exact ih (h ▸ ht) w hw'
      · rw [Bool.not_eq_true] at hgt
        simp [hgt] at h
        rcases List.mem_cons.mp hw with rfl | hw'
        · rw [← h]; exact tup2Gt_irrefl w.1
        · rw [← h]
          exact tup2Gt_neg_trans (ih ht w hw') hgt

theorem hlsFold_no_gt {s : List ((Int × Int) × CL)} {acc : (Int × Int) × Option CL}
    (h : ∀ v ∈ s, tup2Gt v.1 acc.1 = false) : hlsFold acc s = acc := by
  induction s generalizing acc with
  | nil => rfl
  | cons a t ih =>
    have ha := h a (List.mem_cons_self a t)
    simp only [hlsFold, List.foldl_cons, ha, Bool.false_eq_true, if_false]
    exact ih (fun v hv => h v (List.mem_cons_of_mem a hv))

theorem hlsFold_firstMax :
    ∀ {s : List ((Int × Int) × CL)} {v : (Int × Int) × CL},
      firstMax2 s = some v →
      ∀ b0 o0, tup2Gt v.1 b0 = true → hlsFold (b0, o0) s = (v.1, some v.2) := by
  intro s
  induction s with
  | nil => intro v hv; simp [firstMax2] at hv
  | cons a t ih =>
    intro v hv b0 o0 hgt0
    simp only [firstMax2] at hv
    cases ht : firstMax2 t with
    | none =>
      rw [ht] at hv
      simp at hv
      rcases firstMax2_eq_none.mp ht with rfl
      rcases hv with rfl
      simp [hlsFold, hgt0]
    | some w =>
      rw [ht] at hv
      by_cases hwa : tup2Gt w.1 a.1 = true
      · simp [hwa] at hv
        rcases hv with rfl
        by_cases hab : tup2Gt a.1 b0 = true
        · simp only [hlsFold, List.foldl_cons, hab, if_true]
          exact ih ht a.1 (some a.2) hwa
        · rw [Bool.not_eq_true] at hab
          simp only [hlsFold, List.foldl_cons, hab, Bool.false_eq_true, if_false]
          exact ih ht b0 o0 hgt0
      · rw [Bool.not_eq_true] at hwa
        simp [hwa] at hv
        rcases hv with rfl
        simp only [hlsFold, List.foldl_cons, hgt0, if_true]
        exact hlsFold_no_gt (fun x hx =>
          tup2Gt_neg_trans (firstMax2_max ht x hx) hwa)

theorem hlsFold_mem {s : List ((Int × Int) × CL)} :
    ∀ acc u, (hlsFold acc s).2 = some u →
      acc.2 = some u ∨ ∃ v ∈ s, v.2 = u := by
  induction s with
  | nil => intro acc u h; exact Or.inl h
  | cons a t ih =>
    intro acc u h
    simp only [hlsFold, List.foldl_cons] at h
    by_cases hgt : tup2Gt a.1 acc.1 = true
    · rw [if_pos hgt] at h
      rcases ih (a.1, some a.2) u h with h' | ⟨v, hv, rfl⟩
      · simp at h'
        exact Or.inr ⟨a, List.mem_cons_self a t, h'⟩
      · exact Or.inr ⟨v, List.mem_cons_of_mem a hv, rfl⟩
    · rw [Bool.not_eq_true] at hgt
      rw [if_neg (by simp [hgt])] at h
      rcases ih acc u h with h' | ⟨v, hv, rfl⟩
      · exact Or.inl h'
      · exact Or.inr ⟨v, List.mem_cons_of_mem a hv, rfl⟩

theorem firstMax4_eq_none {s : List MediaVariant} :
    firstMax4 s = none ↔ s = [] := by
  cases s with
  | nil => simp [firstMax4]
  | cons v t =>
    simp only [firstMax4]
    cases h : firstMax4 t with
    | none => simp
    | some w => by_cases hgt : tup4Gt (variantScore w) (variantScore v) <;> simp [hgt]

theorem firstMax4_mem {s : List MediaVariant} {v : MediaVariant}
    (h : firstMax4 s = some v) : v ∈ s := by
  induction s generalizing v with
  | nil => simp [firstMax4] at h
  | cons a t ih =>
    simp only [firstMax4] at h
    cases ht : firstMax4 t with
    | none => rw [ht] at h; simp at h; simp [h]
    | some w =>
      rw [ht] at h
      by_cases hgt : tup4Gt (variantScore w) (variantScore a) = true
      · simp [hgt] at h
        exact List.mem_cons_of_mem a (ih (h ▸ ht))
      · rw [Bool.not_eq_true] at hgt
        simp [hgt] at h
        simp [h]

theorem foldMax4_eq (t : List MediaVariant) :
    ∀ a, t.foldl (fun best v =>
        if tup4Gt (variantScore v) (variantScore best) then v else best) a =
      (match firstMax4 t with
       | none => a
       | some w => if tup4Gt (variantScore w) (variantScore a) then w else a) := by
  induction t with
  | nil => intro a; rfl
  | cons b t' ih =>
    intro a
    simp only [List.foldl_cons]
    rw [ih]
    cases ht : firstMax4 t' with
    | none =>
      rcases firstMax4_eq_none.mp ht with rfl
      simp [firstMax4]
    | some w =>
      by_cases hwb : tup4Gt (variantScore w) (variantScore b) = true
      · by_cases hba : tup4Gt (variantScore b) (variantScore a) = true
        · have hwa := tup4Gt_trans hwb hba
          simp [firstMax4, ht, hwb, hba, hwa]
        · rw [Bool.not_eq_true] at hba
          simp [firstMax4, ht, hwb, hba]
      · rw [Bool.not_eq_true] at hwb
        by_cases hba : tup4Gt (variantScore b) (variantScore a) = true
        · simp [firstMax4, ht, hwb, hba]
        · rw [Bool.not_eq_true] at hba
          have hwa := tup4Gt_neg_trans hwb hba
          simp [firstMax4, ht, hwb, hba, hwa]

theorem pyMaxByScore_eq_firstMax4 (s : List MediaVariant) :
    pyMaxByScore s = firstMax4 s := by
  cases s with
  | nil => rfl
  | cons a t =>
    simp only [pyMaxByScore]
    rw [foldMax4_eq]
    cases ht : firstMax4 t with
    | none =>
      rcases firstMax4_eq_none.mp ht with rfl
      simp [firstMax4]
    | some w =>
      by_cases hgt : tup4Gt (variantScore w) (variantScore a) = true
      · simp [firstMax4, ht, hgt]
      · rw [Bool.not_eq_true] at hgt
        simp [firstMax4, ht, hgt]

/-! ## Helper lemmas: the HLS line scan -/

theorem scanVariants_urls {join : CL → CL → CL} {master : CL} :
    ∀ {pend : Option (Int × Int)} {lines : List CL}
      {v : (Int × Int) × CL}, v ∈ scanVariants join master pend lines →
      v.2 ≠ [] ∧ ∃ c, v.2 = join master c := by
  intro pend lines
  induction lines generalizing pend with
  | nil => intro v hv; cases pend <;> simp [scanVariants] at hv
  | cons l rest ih =>
    intro v hv
    cases pend with
    | some sc =>
      simp only [scanVariants] at hv
      by_cases hh : (['#'] : CL).isPrefixOf l = true
      · rw [if_pos hh] at hv
        exact ih hv
      · rw [Bool.not_eq_true] at hh
        rw [if_neg (by simp [hh])] at hv
        by_cases hu : join master l = []
        · rw [if_pos hu] at hv
          simp at hv
          exact ih hv
        · rw [if_neg hu] at hv
          simp at hv
          rcases hv with rfl | hv'
          · exact ⟨hu, l, rfl⟩
          · exact ih hv'
    | none =>
      simp only [scanVariants] at hv
      by_cases ht : streamInfTagColon.isPrefixOf l = true
      · rw [if_pos ht] at hv
        exact ih hv
      · rw [Bool.not_eq_true] at ht
        rw [if_neg (by simp [ht])] at hv
        exact ih hv

theorem scanVariants_skip_hash {join : CL → CL → CL} {master : CL}
    {sc : Int × Int} :
    ∀ (mids : List CL), (∀ m ∈ mids, (['#'] : CL).isPrefixOf m = true) →
      ∀ rest, scanVariants join master (some sc) (mids ++ rest) =
        scanVariants join master (some sc) rest := by
  intro mids
  induction mids with
  | nil => intro _ rest; rfl
  | cons m t ih =>
    intro hm rest
    have h1 := hm m (List.mem_cons_self m t)
    simp only [List.cons_append, scanVariants, h1, if_true]
    exact ih (fun x hx => hm x (List.mem_cons_of_mem m hx)) rest

/-! ## Helper lemmas: substrings and appended lists -/

theorem isPrefixOf_append_self (m suf : CL) : m.isPrefixOf (m ++ suf) = true := by
  induction m with
  | nil => cases suf <;> rfl
  | cons c t ih => simp [List.isPrefixOf, ih]

theorem isInfixCL_of_isPrefixOf {m l : CL} (h : m.isPrefixOf l = true) :
    isInfixCL m l = true := by
  cases l with
  | nil =>
    cases m with
    | nil => rfl
    | cons a b => simp [List.isPrefixOf] at h
  | cons c t => simp [isInfixCL, h]

theorem isInfixCL_append (pre m suf : CL) :
    isInfixCL m (pre ++ (m ++ suf)) = true := by
  induction pre with
  | nil =>
    simp only [List.nil_append]
    exact isInfixCL_of_isPrefixOf (isPrefixOf_append_self m suf)
  | cons c t ih =>
    simp [isInfixCL, ih]

/-! ## Helper lemmas: strings -/

theorem stringMk_eq_empty {l : CL} : String.mk l = "" ↔ l = [] := by
  constructor
  · intro h
    have : (String.mk l).data = ("" : String).data := by rw [h]
    simpa using this
  · intro h; rw [h]

theorem pyLowerS_empty_iff {s : String} : pyLowerS s = "" ↔ s = "" := by
  constructor
  · intro h
    have hl : pyLowerCL s.data = [] := stringMk_eq_empty.mp h
    have : s.data = [] := by
      simpa [pyLowerCL] using hl
    obtain ⟨d⟩ := s
    simp at this
    rw [this]
  · intro h; rw [h]; rfl

/-! ## Helper lemmas: the dispatch sink -/

theorem sendAux_attempted_spec (run : String → String → RunResult) :
    ∀ (urls : List String) (seen : List String),
      (sendAux run seen urls).attempted.Nodup ∧
      ∀ x ∈ (sendAux run seen urls).attempted, x ∉ seen := by
  intro urls
  induction urls with
  | nil => intro seen; simp [sendAux]
  | cons u rest ih =>
    intro seen
    simp only [sendAux]
    by_cases hskip : pyStripS u = "" ∨ pyStripS u ∈ seen
    · rw [if_pos hskip]
      exact ih seen
    · rw [if_neg hskip]
      push_neg at hskip
      by_cases hok : (attemptApps run (pyStripS u)).2.1 = true
      · simp only [hok, if_true]
        obtain ⟨ihn, ihs⟩ := ih (pyStripS u :: seen)
        refine ⟨List.nodup_cons.mpr ⟨fun hmem => ?_, ihn⟩, ?_⟩
        · exact (ihs _ hmem) (List.mem_cons_self _ _)
        · intro x hx
          rcases List.mem_cons.mp hx with rfl | hx'
          · exact hskip.2
          · exact fun hxs => (ihs x hx') (List.mem_cons_of_mem _ hxs)
      · rw [Bool.not_eq_true] at hok
        simp only [hok, Bool.false_eq_true, if_false]
        refine ⟨List.nodup_singleton _, ?_⟩
        intro x hx
        rcases List.mem_singleton.mp hx with rfl
        exact hskip.2

theorem attemptApps_second_only_on_failure (run : String → String → RunResult)
    (u : String) (h : "Downie" ∈ (attemptApps run u).1) :
    (run "Downie 4" u).returncode ≠ 0 := by
  intro h0
  simp [attemptApps, attemptAppsGo, DOWNIE_APP_CANDIDATES, h0] at h

theorem sendAux_stops_on_failure (run : String → String → RunResult)
    (u : String) (rest : List String) (hne : pyStripS u ≠ "")
    (hfail : ∀ a ∈ DOWNIE_APP_CANDIDATES, (run a (pyStripS u)).returncode ≠ 0) :
    (send_to_downie run (u :: rest)).attempted = [pyStripS u] ∧
    (send_to_downie run (u :: rest)).error.isSome = true := by
  have h1 := hfail "Downie 4" (by simp [DOWNIE_APP_CANDIDATES])
  have h2 := hfail "Downie" (by simp [DOWNIE_APP_CANDIDATES])
  have hko : (attemptApps run (pyStripS u)).2.1 = false := by
    simp [attemptApps, attemptAppsGo, DOWNIE_APP_CANDIDATES, h1, h2]
  simp only [send_to_downie, sendAux]
  rw [if_neg (by simp [hne])]
  simp [hko]

/-- Unfolding of `classify_url` under a known parse result. -/
theorem classify_url_of_parse {url netloc path : String}
    (h : pyUrlparseNetlocPath url = Except.ok (netloc, path)) :
    classify_url url =
      (if pyLowerS (if netloc = "" then path else netloc) = "" then
        Except.error (PyErr.dispatchError "URL must include a hostname")
      else
        Except.ok (hostClass (hostBeforeColon (hostAfterAt
          (pyLowerS (if netloc = "" then path else netloc)))))) := by
  unfold classify_url
  rw [h]

/-! ## Claim theorems -/

/-- Claim C1 (code bug): for every URL whose strategy is `other`, the
dispatcher's delegation to the Generic Page Extractor raises `TypeError`
for every cookie jar, because `other_video.extract_videos` accepts no
`cookies` keyword — so the extractor is never consulted, the cookies
never reach a page fetch, and no extractor error can propagate. -/
theorem C1_other_strategy_raises_type_error
    (twitterExtract : String → Option PyDict → Except String (List ExtractedVideo))
    (url : String) (cookies : Option PyDict) :
    extract_links twitterExtract url "other" cookies =
      .error (.typeError
        "extract_videos() got an unexpected keyword argument cookies") := rfl

/-- Claim C2 (counterexample): with inline `a=1`, cookie file `a=2,b=2`
and auto-fetched `a=3`, `resolve_cookies` produces `{a:1, b:2}` — key
`a` maps to the inline value `1`, not to the auto-fetched `3` the claim
demands. -/
theorem C2_counterexample :
    resolve_cookies ⟨some "a=1", some "cookies.txt", none⟩ none none
        (fun p => if p = "cookies.txt" then some "a=2\nb=2" else none)
        (.ok (some [("a", "3")])) = .ok (some [("a", "1"), ("b", "2")]) ∧
      (([("a", "1"), ("b", "2")] : PyDict).lookup "a" = some "1" ∧
        (some "1" : Option String) ≠ some "3") := by
  exact ⟨rfl, by decide⟩

/-- Claim C2 (amended): merging inline `{a:1}`, cookie-file `{a:2,b:2}`
and auto-fetched `{a:3}` yields `{a:1, b:2}`: the inline source has the
highest precedence (auto-fetch the lowest, per the merge order
`build_cookie_jar(command, file, inline)`), the highest-precedence
source wins per key, and lower-precedence keys not overwritten
survive. -/
theorem C2_merge_precedence :
    resolve_cookies ⟨some "a=1", some "cookies.txt", none⟩ none none
        (fun p => if p = "cookies.txt" then some "a=2\nb=2" else none)
        (.ok (some [("a", "3")])) = .ok (some [("a", "1"), ("b", "2")]) ∧
      build_cookie_jar [some [("a", "3")], some [("a", "2"), ("b", "2")],
        some [("a", "1")]] = some [("a", "1"), ("b", "2")] ∧
      ([("a", "1"), ("b", "2")] : PyDict).lookup "a" = some "1" ∧
      ([("a", "1"), ("b", "2")] : PyDict).lookup "b" = some "2" := by
  exact ⟨rfl, rfl, rfl, rfl⟩

/-- Claim C3 (code bug): `resolve_cookies` never reads the cookie-bundle
JSON argument — its result is invariant under any `cookie_json` value,
and with only a cookie bundle supplied the jar is empty, although the
caller `resolve_twitter_cookies` passes `cookie_json` expressly. -/
theorem C3_cookie_json_ignored :
    (∀ (c f j : Option String) (envC envF : Option String)
        (rd : String → Option String) (cmd : Except String (Option PyDict)),
      resolve_cookies ⟨c, f, j⟩ envC envF rd cmd =
        resolve_cookies ⟨c, f, none⟩ envC envF rd cmd) ∧
    resolve_cookies ⟨none, none, some "bundle.json"⟩ none none
        (fun _ => some "bundle-content-never-read") (.ok none) = .ok none := by
  exact ⟨fun c f j envC envF rd cmd => rfl, rfl⟩

/-- Claim C4 (counterexample): the input `banana` parses with an empty
netloc — it has no hostname — yet `classify_url` does not fail with
`InvalidUrl`: the path string stands in for the host and the URL is
classified as `other`. -/
theorem C4_counterexample :
    pyUrlparseNetlocPath "banana" = .ok ("", "banana") ∧
    classify_url "banana" = .ok "other" := ⟨rfl, rfl⟩

/-- Claim C4 (amended): `classify_url` fails with the hostname error
exactly when both the parsed netloc and the parsed path are empty
(Python falls back to the path when the netloc is absent); otherwise
the lowercased netloc-or-path string, with the part up to the last `@`
and from the first `:` removed, is suffix-matched to youtube / twitter
/ other. -/
theorem C4_classify_characterization (url netloc path : String)
    (h : pyUrlparseNetlocPath url = Except.ok (netloc, path)) :
    (classify_url url =
        .error (.dispatchError "URL must include a hostname") ↔
      (netloc = "" ∧ path = "")) ∧
    (¬(netloc = "" ∧ path = "") →
      classify_url url =
        .ok (hostClass (hostBeforeColon (hostAfterAt
          (pyLowerS (if netloc = "" then path else netloc)))))) := by
  have hostEmpty : pyLowerS (if netloc = "" then path else netloc) = "" ↔
      (netloc = "" ∧ path = "") := by
    rw [pyLowerS_empty_iff]
    by_cases hn : netloc = ""
    · simp [hn]
    · simp [hn]
  rw [classify_url_of_parse h]
  constructor
  · constructor
    · intro hc
      by_cases hh : pyLowerS (if netloc = "" then path else netloc) = ""
      · exact hostEmpty.mp hh
      · rw [if_neg hh] at hc
        exact absurd hc (by simp)
    · intro hboth
      rw [if_pos (hostEmpty.mpr hboth)]
  · intro hne
    rw [if_neg (fun hh => hne (hostEmpty.mp hh))]

/-- Claim C4 (witness): a subdomain of youtube.com classifies as
youtube through the amended characterization. -/
theorem C4_witness :
    classify_url "https://m.youtube.com/watch?v=1" = Except.ok "youtube" := by
  have h := (C4_classify_characterization "https://m.youtube.com/watch?v=1"
      "m.youtube.com" "/watch" rfl).2 (by decide)
  rw [h]
  rfl

/-- Claim C5 (counterexample): a playlist with one `#EXT-X-STREAM-INF`
tag carrying no parseable resolution or bandwidth yields exactly one
usable variant, whose `(-1, -1)` tuple is trivially the lexicographic
maximum — yet the selection returns the master URL, not that variant's
URL, because `(-1, -1)` never strictly exceeds the initial best score. -/
theorem C5_counterexample :
    selectVariantUrl (fun _ c => c) "https://h/m.m3u8".data
        "#EXT-X-STREAM-INF:FOO=1\nseg.m3u8\n".data = "https://h/m.m3u8".data ∧
    hlsScan (fun _ c => c) "https://h/m.m3u8".data
        "#EXT-X-STREAM-INF:FOO=1\nseg.m3u8\n".data =
      [((-1, -1), "seg.m3u8".data)] ∧
    "seg.m3u8".data ≠ "https://h/m.m3u8".data := by
  exact ⟨rfl, rfl, by decide⟩

/-- Claim C5 (amended): when the body has no `#EXT-X-STREAM-INF` the
master URL is returned; when it does, the first-encountered variant
whose `(height, bandwidth)` tuple is the lexicographic maximum is
returned provided that maximum strictly exceeds `(-1, -1)`; if no
scanned variant strictly exceeds `(-1, -1)` the master URL is returned
even when usable variants exist. -/
theorem C5_select_best (join : CL → CL → CL) (master body : CL) :
    (isInfixCL streamInfTag body = false →
      selectVariantUrl join master body = master) ∧
    (isInfixCL streamInfTag body = true →
      (∀ v ∈ hlsScan join master body, tup2Gt v.1 (-1, -1) = false) →
      selectVariantUrl join master body = master) ∧
    (isInfixCL streamInfTag body = true →
      ∀ v, firstMax2 (hlsScan join master body) = some v →
      tup2Gt v.1 (-1, -1) = true → selectVariantUrl join master body = v.2) := by
  refine ⟨?_, ?_, ?_⟩
  · intro h
    simp [selectVariantUrl, h]
  · intro htag hall
    unfold selectVariantUrl
    rw [if_neg (by simp [htag])]
    rw [show hlsFold ((-1, -1), none) (hlsScan join master body) =
        ((-1, -1), none) from hlsFold_no_gt hall]
  · intro htag v hv hgt
    unfold selectVariantUrl
    rw [if_neg (by simp [htag])]
    rw [hlsFold_firstMax hv (-1, -1) none hgt]
    exact if_neg (scanVariants_urls (firstMax2_mem hv)).1

/-- Claim C5 (witness): on the spec's own example the 1920x1080 variant
at bandwidth 5000000 beats the 1280x720 variant at 8000000 — height
dominates bandwidth. -/
theorem C5_witness :
    selectVariantUrl (fun _ c => c) "master.m3u8".data
      ("#EXT-X-STREAM-INF:RESOLUTION=1280x720,BANDWIDTH=8000000\nlow.m3u8\n" ++
       "#EXT-X-STREAM-INF:RESOLUTION=1920x1080,BANDWIDTH=5000000\nhigh.m3u8\n").data
      = "high.m3u8".data := by
  exact (C5_select_best (fun _ c => c) "master.m3u8".data
      ("#EXT-X-STREAM-INF:RESOLUTION=1280x720,BANDWIDTH=8000000\nlow.m3u8\n" ++
       "#EXT-X-STREAM-INF:RESOLUTION=1920x1080,BANDWIDTH=5000000\nhigh.m3u8\n").data).2.2
    (by rfl) ((1080, 5000000), "high.m3u8".data) (by rfl) (by decide)

/-- Claim C10: while a `#EXT-X-STREAM-INF` tag is waiting for its URI
line, every `#`-line — later `#EXT-X-STREAM-INF` tags included — is
skipped, so when two tags appear with no URI line between them the URI
after the second tag is scored under the first tag's attributes, and
the second tag's attributes are never scored as a variant (the result
does not mention `a2`). -/
theorem C10_second_tag_skipped (join : CL → CL → CL) (master : CL)
    (a1 a2 u : CL) (mids mids2 : List CL) (rest : List CL)
    (hm : ∀ m ∈ mids, (['#'] : CL).isPrefixOf m = true)
    (hm2 : ∀ m ∈ mids2, (['#'] : CL).isPrefixOf m = true)
    (hu : (['#'] : CL).isPrefixOf u = false) :
    scanVariants join master none
        ((streamInfTagColon ++ a1) ::
          (mids ++ (streamInfTagColon ++ a2) :: (mids2 ++ u :: rest))) =
      (if join master u = [] then []
       else [(lineScore (streamInfTagColon ++ a1), join master u)]) ++
        scanVariants join master none rest ∧
    lineScore (streamInfTagColon ++ a1) =
      streamInfScore (parse_stream_inf_attributes a1) := by
  constructor
  · have e1 : scanVariants join master none
        ((streamInfTagColon ++ a1) ::
          (mids ++ (streamInfTagColon ++ a2) :: (mids2 ++ u :: rest))) =
        scanVariants join master (some (lineScore (streamInfTagColon ++ a1)))
          (mids ++ (streamInfTagColon ++ a2) :: (mids2 ++ u :: rest)) := by
      simp [scanVariants, isPrefixOf_append_self]
    rw [e1, scanVariants_skip_hash mids hm]
    have e2 : scanVariants join master
        (some (lineScore (streamInfTagColon ++ a1)))
          ((streamInfTagColon ++ a2) :: (mids2 ++ u :: rest)) =
        scanVariants join master (some (lineScore (streamInfTagColon ++ a1)))
          (mids2 ++ u :: rest) := by
      simp [scanVariants,
        show (['#'] : CL).isPrefixOf (streamInfTagColon ++ a2) = true from rfl]
    rw [e2, scanVariants_skip_hash mids2 hm2]
    simp [scanVariants, hu]
  · rfl

/-- Claim C10 (witness): two adjacent `#EXT-X-STREAM-INF` tags followed
by one URI produce a single scanned variant, scored from the first
tag's 640x360 resolution; the second tag's 1920x1080 never appears. -/
theorem C10_witness :
    scanVariants (fun _ c => c) "m.m3u8".data none
        ((streamInfTagColon ++ "RESOLUTION=640x360".data) ::
          ([] ++ (streamInfTagColon ++ "RESOLUTION=1920x1080".data) ::
            ([] ++ "only.m3u8".data :: []))) =
      [((360, -1), "only.m3u8".data)] := by
  rw [(C10_second_tag_skipped (fun _ c => c) "m.m3u8".data
      "RESOLUTION=640x360".data "RESOLUTION=1920x1080".data "only.m3u8".data
      [] [] [] (by simp) (by simp) rfl).1]
  rfl

/-- Claim C6: on a non-empty variant list the chosen variant is the
first-encountered lexicographic maximum of the 4-tuple ranking key
`(isMp4, bitrate, height, width)` over the ranked pool — the
exactly-`video/mp4` variants when any exist, all variants otherwise —
so whenever a `video/mp4` variant is present the winner has content
type `video/mp4`, whatever bitrates the others carry.  (`isMp4` is the
source's score bonus: content type contains `mp4`.) -/
theorem C6_variant_ranking (l : List MediaVariant) (hne : l ≠ []) :
    choose_best_variant l =
      firstMax4 (if (l.filter (fun v => ctLower v = "video/mp4")).isEmpty then l
                 else l.filter (fun v => ctLower v = "video/mp4")) ∧
    (∀ w, choose_best_variant l = some w →
      (∃ v ∈ l, ctLower v = "video/mp4") → ctLower w = "video/mp4") := by
  constructor
  · cases l with
    | nil => exact absurd rfl hne
    | cons a t =>
      simp only [choose_best_variant]
      exact pyMaxByScore_eq_firstMax4 _
  · rintro w hw ⟨v, hv, hct⟩
    have hcand : (l.filter (fun v => ctLower v = "video/mp4")) ≠ [] := by
      intro hemp
      have hmem : v ∈ l.filter (fun v => ctLower v = "video/mp4") :=
        List.mem_filter.mpr ⟨hv, by simp [hct]⟩
      rw [hemp] at hmem
      exact absurd hmem (List.not_mem_nil v)
    cases l with
    | nil => exact absurd rfl hne
    | cons a t =>
      simp only [choose_best_variant] at hw
      rw [if_neg (by simpa [List.isEmpty_iff] using hcand)] at hw
      rw [pyMaxByScore_eq_firstMax4] at hw
      have hwmem := firstMax4_mem hw
      simpa using (List.mem_filter.mp hwmem).2

/-- Claim C6 (witness): an mp4 variant at bitrate 5000000 beats a webm
variant at 8000000 in the same list. -/
theorem C6_witness :
    choose_best_variant
        [⟨some "video/webm", some 8000000, some 720, some 1280, some "w"⟩,
         ⟨some "video/mp4", some 5000000, some 1080, some 1920, some "m"⟩] =
      some ⟨some "video/mp4", some 5000000, some 1080, some 1920, some "m"⟩ := by
  rw [(C6_variant_ranking
      [⟨some "video/webm", some 8000000, some 720, some 1280, some "w"⟩,
       ⟨some "video/mp4", some 5000000, some 1080, some 1920, some "m"⟩]
      (by decide)).1]
  rfl

/-- Claim C7: when the social API response's content type is not JSON,
the extractor raises with a message derived from the body's
`og:description` meta content first, the `<title>` second, and the
first non-blank line third, and the extracted (decoded, stripped)
message is contained verbatim in the raised error's message. -/
theorem C7_nonjson_error_message (uesc : CL → CL) (tomb : Option CL)
    (hdr : Option CL) (payload m : CL)
    (hct : isInfixCL "application/json".data (pyLowerCL (hdr.getD [])) = false)
    (hm : extract_html_error_message uesc payload = some m) :
    vx_content_type_gate uesc tomb hdr payload =
      .error (vx_nonjson_error uesc tomb hdr payload) ∧
    isInfixCL m (vx_nonjson_error uesc tomb hdr payload) = true ∧
    (∀ mm, metaMessage uesc payload = some mm → m = mm) ∧
    (metaMessage uesc payload = none →
      ∀ t, titleMessage uesc payload = some t → m = t) ∧
    (metaMessage uesc payload = none → titleMessage uesc payload = none →
      lineMessage uesc payload = some m) := by
  refine ⟨?_, ?_, ?_, ?_, ?_⟩
  · simp [vx_content_type_gate, hct]
  · unfold vx_nonjson_error
    rw [hm]
    cases tomb with
    | none =>
      simp only [joinSemis]
      have h := isInfixCL_append "vxtwitter error: ".data m []
      rwa [List.append_nil] at h
    | some t =>
      simp only [joinSemis, List.append_assoc]
      exact isInfixCL_append "vxtwitter error: ".data m _
  · intro mm hmm
    simp only [extract_html_error_message, hmm] at hm
    exact (Option.some.injEq _ _ ▸ hm).symm
  · intro hno t ht
    simp only [extract_html_error_message, hno, ht] at hm
    exact (Option.some.injEq _ _ ▸ hm).symm
  · intro hno hnt
    simp only [extract_html_error_message, hno, hnt] at hm
    exact hm

/-- Claim C7 (witness): a tombstoned-tweet fixture — a non-JSON body
with a recognizable `og:description` meta tag whose content holds an
HTML entity — yields an error message containing the decoded text. -/
theorem C7_witness :
    isInfixCL "Tweet gone & removed".data
      (vx_nonjson_error unescapeAmp (some "status msg".data)
        (some "text/html; charset=utf-8".data)
        ("<html><head><title> Fallback T </title><meta charset=\"utf-8\" " ++
         "property=\"og:description\" content=\"Tweet gone &amp; removed\">" ++
         "</head><body>first line</body></html>").data) = true := by
  exact (C7_nonjson_error_message unescapeAmp (some "status msg".data)
      (some "text/html; charset=utf-8".data)
      ("<html><head><title> Fallback T </title><meta charset=\"utf-8\" " ++
       "property=\"og:description\" content=\"Tweet gone &amp; removed\">" ++
       "</head><body>first line</body></html>").data
      "Tweet gone & removed".data (by rfl) (by rfl)).2.1

/-- Claim C8 (counterexample): when every agent fails for the first URL
of the sequence, the sink raises `DispatchError` and the second URL is
never attempted — the rest of the sequence is aborted, contrary to the
claim. -/
theorem C8_counterexample :
    (send_to_downie (fun _ _ => ⟨1, "boom", ""⟩) ["u1", "u2"]).error.isSome
        = true ∧
    "u2" ∉ (send_to_downie (fun _ _ => ⟨1, "boom", ""⟩) ["u1", "u2"]).attempted := by
  exact ⟨rfl, by decide⟩

/-- Claim C8 (amended): the sink attempts each distinct (stripped) URL
at most once; the second agent identifier is invoked only when the
first's exit code is non-zero; and when every identifier fails for a
URL a `DispatchError` is raised for it and the remaining URLs of that
sequence are not attempted (the caller's per-page loop catches the
error, so the outer batch continues). -/
theorem C8_sink_behavior (run : String → String → RunResult)
    (urls : List String) :
    (send_to_downie run urls).attempted.Nodup ∧
    (∀ u, "Downie" ∈ (attemptApps run u).1 →
      (run "Downie 4" u).returncode ≠ 0) ∧
    (∀ u rest, pyStripS u ≠ "" →
      (∀ a ∈ DOWNIE_APP_CANDIDATES, (run a (pyStripS u)).returncode ≠ 0) →
      (send_to_downie run (u :: rest)).attempted = [pyStripS u] ∧
      (send_to_downie run (u :: rest)).error.isSome = true) := by
  exact ⟨(sendAux_attempted_spec run urls []).1,
    fun u => attemptApps_second_only_on_failure run u,
    fun u rest h1 h2 => sendAux_stops_on_failure run u rest h1 h2⟩

/-- Claim C8 (witness): with a runner whose every invocation exits 1,
the sink attempts only the first URL of `["a", "b"]` and raises. -/
theorem C8_witness :
    (send_to_downie (fun _ _ => ⟨1, "err", ""⟩) ["a", "b"]).attempted = ["a"] ∧
    (send_to_downie (fun _ _ => ⟨1, "err", ""⟩) ["a", "b"]).error.isSome = true := by
  have h := (C8_sink_behavior (fun _ _ => ⟨1, "err", ""⟩) ["a", "b"]).2.2 "a" ["b"]
      (by decide) (by decide)
  exact ⟨h.1.trans (by rfl), h.2⟩

/-- Claim C9 (counterexample): an embedded player config whose
`video.url` is the relative, non-HLS path `/clip.mp4` produces a
`VideoResult` whose url is that relative path verbatim — not an
absolute URL. -/
theorem C9_counterexample :
    extractVideosFromConfigs (fun _ _ => .error "network-unavailable")
        (fun _ c => c) "https://site/archives/5/" 1
        [JValue.jobj [("video", JValue.jobj [("url", JValue.jstr "/clip.mp4")])]] =
      [⟨1, "/clip.mp4", none⟩] ∧
    specAbsoluteUrl "/clip.mp4" = false := ⟨rfl, rfl⟩

/-- Claim C9 (amended): a resolved url from the generic extractor is
either the config's embedded `video.url` verbatim (stripped) — so it
is absolute only when the page embedded an absolute URL — or, for an
HLS master fetched successfully, the HLS selector's output, which is
itself the master URL or one of the scanned variants' joined URLs. -/
theorem C9_resolved_url_shape :
    (∀ (fetch : String → String → Except String String) (join : CL → CL → CL)
        (cfg : JValue) (referer r : String),
      resolve_video_url fetch join cfg referer = some r →
      ∃ u, embeddedVideoUrl cfg = some u ∧
        (r = pyStripS u ∨
          ∃ body, fetch (pyStripS u) referer = .ok body ∧
            r = String.mk (selectVariantUrl join (pyStripS u).data body.data))) ∧
    (∀ (join : CL → CL → CL) (master body : CL),
      selectVariantUrl join master body = master ∨
        selectVariantUrl join master body ∈
          (hlsScan join master body).map (·.2)) := by
  constructor
  · intro fetch join cfg referer r h
    cases hemb : embeddedVideoUrl cfg with
    | none => simp [resolve_video_url, hemb] at h
    | some u0 =>
      refine ⟨u0, rfl, ?_⟩
      simp only [resolve_video_url, hemb] at h
      by_cases hm3u8 : isInfixCL "m3u8".data
          (pyLowerCL (match splitFirst '?' (pyStripS u0).data with
            | some (a, _) => a
            | none => (pyStripS u0).data)) = true
      · rw [if_pos hm3u8] at h
        cases hfetch : fetch (pyStripS u0) referer with
        | error e =>
          simp only [choose_best_hls_variant, hfetch] at h
          exact Or.inl (by simpa using h.symm)
        | ok body =>
          simp only [choose_best_hls_variant, hfetch] at h
          exact Or.inr ⟨body, rfl, by simpa using h.symm⟩
      · rw [if_neg hm3u8] at h
        exact Or.inl (by simpa using h.symm)
  · intro join master body
    unfold selectVariantUrl
    by_cases htag : isInfixCL streamInfTag body = false
    · rw [if_pos htag]
      exact Or.inl rfl
    · rw [if_neg htag]
      split
      next u hf =>
        by_cases hu : u = []
        · rw [if_pos hu]
          exact Or.inl rfl
        · rw [if_neg hu]
          rcases hlsFold_mem _ u hf with habs | ⟨v, hv, rfl⟩
          · simp at habs
          · exact Or.inr (List.mem_map.mpr ⟨v, hv, rfl⟩)
      next => exact Or.inl rfl

/-- Claim C9 (witness): a non-HLS absolute embedded URL resolves to
itself; obtained through the amended characterization. -/
theorem C9_witness :
    embeddedVideoUrl
        (JValue.jobj [("video", JValue.jobj [("url",
          JValue.jstr "https://cdn/v.mp4")])]) = some "https://cdn/v.mp4" ∧
    "https://cdn/v.mp4" = pyStripS "https://cdn/v.mp4" := by
  obtain ⟨u, hu, hcase⟩ := C9_resolved_url_shape.1
      (fun _ _ => .error "down") (fun _ c => c)
      (JValue.jobj [("video", JValue.jobj [("url",
        JValue.jstr "https://cdn/v.mp4")])]) "ref" "https://cdn/v.mp4" (by rfl)
  have hcomp : embeddedVideoUrl
      (JValue.jobj [("video", JValue.jobj [("url",
        JValue.jstr "https://cdn/v.mp4")])]) = some "https://cdn/v.mp4" := by rfl
  have hu' : u = "https://cdn/v.mp4" := by
    have := hu.symm.trans hcomp
    simpa using this
  subst hu'
  rcases hcase with hc | ⟨body, hbody, _⟩
  · exact ⟨hu, hc⟩
  · simp at hbody

end VD
